import Mathlib

/-!
Shallow embedding of the MEV arbitrage bot (`mev_optimized.js`) for
verification of its natural-language specification.

External effects (HTTP fetches, RPC calls, library serialization) are
modelled as oracle functions supplied as parameters; JavaScript control
flow (try/catch, early return, for-loops) is translated to explicit
`JsResult` values and structural recursion over the list of attempt
indices.  Traces of outbound calls are recorded as event lists so that
temporal claims ("never calls X before Y") can be stated.
-/

namespace MevBot

/-- Outcome of a JavaScript async function call: a returned value, a thrown
exception, or the `undefined` produced by falling off the end of a
function body (e.g. a `for` retry loop that never runs). -/
inductive JsResult (α : Type) where
  | ok (a : α)
  | thrown
  | undef
  deriving DecidableEq, Repr

-- =============== CONFIGURATION (mev_optimized.js lines 21-43) ===============

/-- `const PRIVATE_KEY_BASE58 = "PRIVATE_KEY_BASE58"` (line 23). -/
def PRIVATE_KEY_BASE58 : String := "PRIVATE_KEY_BASE58"

/-- `const USDC_MINT = 'EPjF…'` (line 29). -/
def USDC_MINT : String := "EPjFWdd5AufqSSqeM2qN1xzybapC8G4wEGGkZwyTDt1v"

/-- `const WSOL_MINT = 'So11…'` (line 30). -/
def WSOL_MINT : String := "So11111111111111111111111111111111111111112"

/-- `const INPUT_USDC = 10_000_000` (line 33). -/
def INPUT_USDC : Nat := 10000000

/-- `const MIN_PROFIT_USDC = 1200` (line 34). -/
def MIN_PROFIT_USDC : Nat := 1200

/-- `const MAX_TX_SIZE = 1232` (line 36). -/
def MAX_TX_SIZE : Nat := 1232

/-- `const MAX_RETRIES = 3` (line 37). -/
def MAX_RETRIES : Nat := 3

-- =============== QUOTE CLIENT (getQuote, lines 56-69) ===============

/-- A parsed JSON response of the pricing service; `outAmount` is absent
(`none`) when the response carries no output-amount field. -/
structure QuoteResp where
  outAmount : Option Nat
  deriving DecidableEq, Repr

/-- JavaScript truthiness of `res?.outAmount`: false for a missing field
and for the number 0. -/
def outAmountTruthy (r : QuoteResp) : Bool :=
  match r.outAmount with
  | none => false
  | some n => n != 0

/-- One attempt of the `getQuote` loop body (lines 59-62): `fetch` models
the transport (`none` = network/JSON error, i.e. the promise rejected);
a fetched response whose `outAmount` is falsy throws
(`if (!res?.outAmount) throw …`), which the surrounding catch treats the
same as a transport error.  `some r` therefore means the attempt
succeeded with response `r`. -/
def attemptResult (fetch : Nat → Option QuoteResp) (i : Nat) : Option QuoteResp :=
  match fetch i with
  | some r => if outAmountTruthy r then some r else none
  | none => none

/-- The `for (let i = 0; i < retries; i++)` loop of `getQuote`
(lines 57-68), recursed over the list of remaining attempt indices
(`List.range retries` at the top call).  Returns the JS outcome, the
number of fetch attempts made, and the list of backoff delays slept
(`sleep(1000 * (i + 1))`, line 66). -/
def getQuoteGo (fetch : Nat → Option QuoteResp) (retries : Nat) :
    List Nat → JsResult QuoteResp × Nat × List Nat
  | [] => (.undef, 0, [])
  | i :: rest =>
    match attemptResult fetch i with
    | some r => (.ok r, 1, [])
    | none =>
      if i = retries - 1 then (.thrown, 1, [])
      else
        let out := getQuoteGo fetch retries rest
        (out.1, out.2.1 + 1, 1000 * (i + 1) :: out.2.2)

/-- `getQuote` (lines 56-69) with the HTTP layer abstracted as `fetch`. -/
def getQuote (fetch : Nat → Option QuoteResp) (retries : Nat) :
    JsResult QuoteResp × Nat × List Nat :=
  getQuoteGo fetch retries (List.range retries)

theorem getQuoteGo_attempts_le (fetch : Nat → Option QuoteResp) (retries : Nat) :
    ∀ l : List Nat, (getQuoteGo fetch retries l).2.1 ≤ l.length := by
  intro l
  induction l with
  | nil => simp [getQuoteGo]
  | cons i rest ih =>
    simp only [getQuoteGo]
    cases h : attemptResult fetch i with
    | some r => simp
    | none =>
      by_cases hi : i = retries - 1
      · simp [hi]
      · simp only [hi, if_false, List.length_cons]
        exact Nat.succ_le_succ ih

theorem getQuoteGo_cons (fetch : Nat → Option QuoteResp) (retries i : Nat)
    (rest : List Nat) :
    getQuoteGo fetch retries (i :: rest) =
      match attemptResult fetch i with
      | some r => (.ok r, 1, [])
      | none =>
        if i = retries - 1 then (.thrown, 1, [])
        else
          ((getQuoteGo fetch retries rest).1,
           (getQuoteGo fetch retries rest).2.1 + 1,
           1000 * (i + 1) :: (getQuoteGo fetch retries rest).2.2) := rfl

theorem getQuoteGo_allFail (fetch : Nat → Option QuoteResp) (retries : Nat) :
    ∀ k i : Nat, i + (k + 1) = retries →
      (∀ j, i ≤ j → j < retries → attemptResult fetch j = none) →
      getQuoteGo fetch retries (List.range' i (k + 1)) =
        (.thrown, k + 1, (List.range' i k).map (fun j => 1000 * (j + 1))) := by
  intro k
  induction k with
  | zero =>
    intro i hi hf
    have h1 : attemptResult fetch i = none := hf i le_rfl (by omega)
    have h2 : i = retries - 1 := by omega
    rw [List.range'_succ, getQuoteGo_cons]
    simp only [h1]
    rw [if_pos h2]
    simp
  | succ k ih =>
    intro i hi hf
    have h1 : attemptResult fetch i = none := hf i le_rfl (by omega)
    have h2 : ¬ (i = retries - 1) := by omega
    have h3 := ih (i + 1) (by omega) (fun j hj1 hj2 => hf j (by omega) hj2)
    rw [List.range'_succ, getQuoteGo_cons]
    simp only [h1, h2, if_false, h3]
    rw [List.range'_succ]
    simp

/-- C7: the Quote Client makes at most `retries` attempts; a response
without an output-amount field counts as a failed attempt; and when every
attempt fails it makes exactly `retries` attempts (the initial one plus
`retries − 1` retries), sleeps `1000·1, 1000·2, …, 1000·(retries−1)` ms
between attempts, and propagates the error (throws) after the last
failure with no further retry. -/
theorem c7_quote_retry (fetch : Nat → Option QuoteResp) (retries : Nat) :
    (getQuote fetch retries).2.1 ≤ retries ∧
    (∀ r : QuoteResp, r.outAmount = none → ∀ i, fetch i = some r →
      attemptResult fetch i = none) ∧
    (1 ≤ retries → (∀ j, j < retries → attemptResult fetch j = none) →
      getQuote fetch retries =
        (.thrown, retries, (List.range (retries - 1)).map (fun j => 1000 * (j + 1)))) := by
  refine ⟨?_, ?_, ?_⟩
  · have h := getQuoteGo_attempts_le fetch retries (List.range retries)
    simpa [getQuote] using h
  · intro r hr i hi
    simp [attemptResult, hi, outAmountTruthy, hr]
  · intro h1 h2
    obtain ⟨m, rfl⟩ : ∃ m, retries = m + 1 := ⟨retries - 1, by omega⟩
    have h := getQuoteGo_allFail fetch (m + 1) m 0 (by omega) (fun j _ hj => h2 j hj)
    rw [getQuote]
    simpa [List.range_eq_range'] using h

/-- Witness for C7: with a transport that always fails and the default
retry count 3, the Quote Client throws after exactly 3 attempts with
backoff delays 1000 ms and 2000 ms. -/
theorem c7_witness :
    getQuote (fun _ => none) 3 = (.thrown, 3, [1000, 2000]) := by
  have h := (c7_quote_retry (fun _ => none) 3).2.2 (by omega)
    (fun j _ => rfl)
  simpa using h

-- =============== INSTRUCTION BUILDER ALT FILTER (getSwapPayload, lines 108-130) ===============

/-- A lookup-table blob as returned by the instruction service:
`accountKey`, the base64-decoded raw bytes (`data`), and whether
`AddressLookupTableAccount.deserialize` succeeds on them (`decodeOk`;
a deserialization throw is caught and the table skipped, lines 127-129). -/
structure RawAlt where
  accountKey : String
  data : List Nat
  decodeOk : Bool
  deriving DecidableEq, Repr

/-- The `for (const tbl of …)` body of lines 112-130: skip a table whose
raw length exceeds 1000 bytes (line 115), skip one that fails to decode
(line 127), keep the rest, and break once 2 are kept (line 126). -/
def filterAltsLoop : List RawAlt → List RawAlt → List RawAlt
  | [], acc => acc
  | t :: ts, acc =>
    if t.data.length > 1000 then filterAltsLoop ts acc
    else if t.decodeOk then
      let acc' := acc ++ [t]
      if acc'.length ≥ 2 then acc' else filterAltsLoop ts acc'
    else filterAltsLoop ts acc

/-- The lookup tables kept by `getSwapPayload` (lines 108-130).  Note the
source iterates over `(res.addressLookupTableAccounts || []).slice(0, maxAlts)`
(line 112) with `maxAlts = 2`: the list is truncated to its first two
entries BEFORE the size filter runs. -/
def getSwapPayloadAlts (tbls : List RawAlt) : List RawAlt :=
  filterAltsLoop (tbls.take 2) []

/-- Oversized table in the first slot of the response. -/
def exA : RawAlt := ⟨"A", List.replicate 1001 0, true⟩

/-- Small decodable table in the second slot. -/
def exB : RawAlt := ⟨"B", List.replicate 10 0, true⟩

/-- Small decodable table in the third slot — never examined by the code. -/
def exC : RawAlt := ⟨"C", List.replicate 20 0, true⟩

set_option maxRecDepth 4000 in
/-- C5 counterexample: with the response `[exA (1001 bytes), exB, exC]`,
the claim demands that after discarding the oversized `exA`, the builder
keeps attempting later tables until 2 are kept, i.e. keeps `[exB, exC]`.
The code slices the response to its first 2 entries before filtering, so
`exC` — in range of the response, within the 1000-byte limit, and
decodable — is never attempted and only `[exB]` is kept. -/
theorem c5_counterexample :
    exC.data.length ≤ 1000 ∧ exC.decodeOk = true ∧
    (getSwapPayloadAlts [exA, exB, exC]).length < 2 ∧
    exC ∉ getSwapPayloadAlts [exA, exB, exC] ∧
    getSwapPayloadAlts [exA, exB, exC] = [exB] := by
  decide

/-- C5 (amended): the Instruction Builder examines only the FIRST 2
lookup tables of the response, in the order received; of those it
discards each table whose raw serialized length exceeds 1000 bytes or
which fails to decode, and keeps the rest (hence at most 2).  Tables
beyond the first two are never attempted, even when an earlier table was
discarded as oversized.  Formally the kept list is exactly the
size-and-decode filter of the first two response entries. -/
theorem c5_amended (tbls : List RawAlt) :
    getSwapPayloadAlts tbls =
      (tbls.take 2).filter (fun t => decide (t.data.length ≤ 1000) && t.decodeOk) ∧
    (getSwapPayloadAlts tbls).length ≤ 2 := by
  have hmain : getSwapPayloadAlts tbls =
      (tbls.take 2).filter (fun t => decide (t.data.length ≤ 1000) && t.decodeOk) := by
    rcases tbls with _ | ⟨a, _ | ⟨b, rest⟩⟩
    · rfl
    · by_cases ha : a.data.length ≤ 1000
      · by_cases hda : a.decodeOk <;>
          simp [getSwapPayloadAlts, filterAltsLoop, ha, hda, Nat.not_lt.mpr ha]
      · simp [getSwapPayloadAlts, filterAltsLoop, ha, Nat.lt_of_not_le ha]
    · by_cases ha : a.data.length ≤ 1000 <;> by_cases hb : b.data.length ≤ 1000 <;>
        by_cases hda : a.decodeOk <;> by_cases hdb : b.decodeOk <;>
        simp [getSwapPayloadAlts, filterAltsLoop, ha, hb, hda, hdb,
          Nat.not_lt.mpr, Nat.lt_of_not_le, *]
  refine ⟨hmain, ?_⟩
  rw [hmain]
  calc ((tbls.take 2).filter _).length ≤ (tbls.take 2).length := List.length_filter_le _ _
    _ ≤ 2 := List.length_take_le 2 tbls

-- =============== LOOKUP-TABLE OPTIMIZER (checkAndTrade, lines 332-355) ===============

/-- A decoded `AddressLookupTableAccount` as seen by the optimizer:
its key (`tbl.key.toBase58()`) and the byte length of `tbl.serialize()`
(`none` when serialization throws, caught at lines 347-349). -/
structure Alt where
  key : String
  serializedLen : Option Nat
  deriving DecidableEq, Repr

/-- An `altSizes` entry `{ alt: tbl, size: serialized.length, key }`
(line 346). -/
structure SizedAlt where
  alt : Alt
  size : Nat
  key : String
  deriving DecidableEq, Repr

/-- Ordering used by `altSizes.sort((a, b) => a.size - b.size)` (line 354). -/
def sizeLE (a b : SizedAlt) : Prop := a.size ≤ b.size

/-- The `for (const tbl of allAlts)` loop of lines 339-351: per table the
key is added to `seen` first; a duplicate key is skipped; a table whose
serialization throws is dropped (its key stays consumed); the rest are
recorded with their serialized size.  (The source's `if (!tbl) continue`
guard on line 340 is vacuous here: a Lean list holds no null entries.) -/
def collectSizes : List Alt → List String → List SizedAlt
  | [], _ => []
  | t :: ts, seen =>
    if t.key ∈ seen then collectSizes ts seen
    else
      match t.serializedLen with
      | some n => ⟨t, n, t.key⟩ :: collectSizes ts (t.key :: seen)
      | none => collectSizes ts (t.key :: seen)

theorem collectSizes_cons (t : Alt) (ts : List Alt) (seen : List String) :
    collectSizes (t :: ts) seen =
      if t.key ∈ seen then collectSizes ts seen
      else match t.serializedLen with
        | some n => ⟨t, n, t.key⟩ :: collectSizes ts (t.key :: seen)
        | none => collectSizes ts (t.key :: seen) := rfl

/-- Stable insertion (ties keep original order), matching the stable
ascending sort mandated for `Array.prototype.sort` by ES2019. -/
def insertSorted (x : SizedAlt) : List SizedAlt → List SizedAlt
  | [] => [x]
  | y :: ys => if y.size < x.size then y :: insertSorted x ys else x :: y :: ys

/-- `altSizes.sort((a, b) => a.size - b.size)` (line 354) as a stable
insertion sort. -/
def sortBySize : List SizedAlt → List SizedAlt
  | [] => []
  | x :: xs => insertSorted x (sortBySize xs)

/-- The sorted surviving `altSizes` list for the two legs' tables
(`allAlts = [...alts1, ...alts2]`, line 333, then lines 334-354). -/
def survivorsSorted (alts1 alts2 : List Alt) : List SizedAlt :=
  sortBySize (collectSizes (alts1 ++ alts2) [])

/-- `optimizedAlts.push(...altSizes.slice(0, 2).map(item => item.alt))`
(line 355): the 2 smallest surviving tables, ascending by size. -/
def optimizeAlts (alts1 alts2 : List Alt) : List Alt :=
  ((survivorsSorted alts1 alts2).take 2).map (·.alt)

theorem insertSorted_perm (x : SizedAlt) : ∀ l, List.Perm (insertSorted x l) (x :: l) := by
  intro l
  induction l with
  | nil => simp [insertSorted]
  | cons y ys ih =>
    simp only [insertSorted]
    by_cases h : y.size < x.size
    · rw [if_pos h]
      exact (List.Perm.cons y ih).trans (List.Perm.swap x y ys)
    · rw [if_neg h]

theorem sortBySize_perm : ∀ l, List.Perm (sortBySize l) l := by
  intro l
  induction l with
  | nil => simp [sortBySize]
  | cons x xs ih =>
    exact (insertSorted_perm x (sortBySize xs)).trans (List.Perm.cons x ih)

theorem insertSorted_sorted (x : SizedAlt) :
    ∀ l, List.Pairwise sizeLE l → List.Pairwise sizeLE (insertSorted x l) := by
  intro l
  induction l with
  | nil => intro _; simp [insertSorted, sizeLE]
  | cons y ys ih =>
    intro hp
    rcases List.pairwise_cons.mp hp with ⟨hy, hys⟩
    simp only [insertSorted]
    by_cases h : y.size < x.size
    · rw [if_pos h]
      refine List.pairwise_cons.mpr ⟨?_, ih hys⟩
      intro z hz
      have hz' : z ∈ x :: ys := ((insertSorted_perm x ys).mem_iff).mp hz
      rcases List.mem_cons.mp hz' with rfl | hz''
      · exact Nat.le_of_lt h
      · exact hy z hz''
    · rw [if_neg h]
      refine List.pairwise_cons.mpr ⟨?_, hp⟩
      intro z hz
      rcases List.mem_cons.mp hz with rfl | hz'
      · exact Nat.le_of_not_lt h
      · exact Nat.le_trans (Nat.le_of_not_lt h) (hy z hz')

theorem sortBySize_sorted : ∀ l, List.Pairwise sizeLE (sortBySize l) := by
  intro l
  induction l with
  | nil => simp [sortBySize]
  | cons x xs ih => exact insertSorted_sorted x _ ih

theorem sorted_take_le_drop (l : List SizedAlt) (h : List.Pairwise sizeLE l)
    (n : Nat) : ∀ x ∈ l.take n, ∀ y ∈ l.drop n, x.size ≤ y.size := by
  have h2 : List.Pairwise sizeLE (l.take n ++ l.drop n) := by
    rw [List.take_append_drop]; exact h
  rw [List.pairwise_append] at h2
  exact fun x hx y hy => h2.2.2 x hx y hy

theorem collectSizes_mem : ∀ (l : List Alt) (seen : List String) (s : SizedAlt),
    s ∈ collectSizes l seen →
    s.alt ∈ l ∧ s.alt.serializedLen = some s.size ∧ s.key = s.alt.key ∧
      s.key ∉ seen := by
  intro l
  induction l with
  | nil => intro seen s h; simp [collectSizes] at h
  | cons t ts ih =>
    intro seen s h
    rw [collectSizes_cons] at h
    by_cases ht : t.key ∈ seen
    · rw [if_pos ht] at h
      obtain ⟨h1, h2, h3, h4⟩ := ih seen s h
      exact ⟨List.mem_cons_of_mem _ h1, h2, h3, h4⟩
    · rw [if_neg ht] at h
      cases hs : t.serializedLen with
      | some n =>
        simp only [hs] at h
        rcases List.mem_cons.mp h with rfl | h'
        · exact ⟨List.mem_cons_self _ _, hs, rfl, ht⟩
        · obtain ⟨h1, h2, h3, h4⟩ := ih _ s h'
          refine ⟨List.mem_cons_of_mem _ h1, h2, h3, fun hc => h4 ?_⟩
          exact List.mem_cons_of_mem _ hc
      | none =>
        simp only [hs] at h
        obtain ⟨h1, h2, h3, h4⟩ := ih _ s h
        refine ⟨List.mem_cons_of_mem _ h1, h2, h3, fun hc => h4 ?_⟩
        exact List.mem_cons_of_mem _ hc

theorem collectSizes_keys_nodup : ∀ (l : List Alt) (seen : List String),
    ((collectSizes l seen).map (·.key)).Nodup := by
  intro l
  induction l with
  | nil => intro seen; simp [collectSizes]
  | cons t ts ih =>
    intro seen
    rw [collectSizes_cons]
    by_cases ht : t.key ∈ seen
    · rw [if_pos ht]; exact ih seen
    · rw [if_neg ht]
      cases hs : t.serializedLen with
      | some n =>
        simp only [List.map_cons, List.nodup_cons]
        refine ⟨?_, ih _⟩
        intro hc
        rcases List.mem_map.mp hc with ⟨s, hs1, hs2⟩
        have := (collectSizes_mem ts _ s hs1).2.2.2
        exact this (hs2 ▸ List.mem_cons_self _ _)
      | none => exact ih _

theorem collectSizes_first :
    ∀ (l₁ : List Alt) (seen : List String) (t : Alt) (l₂ : List Alt) (n : Nat),
      t.key ∉ l₁.map (·.key) → t.key ∉ seen → t.serializedLen = some n →
      (⟨t, n, t.key⟩ : SizedAlt) ∈ collectSizes (l₁ ++ t :: l₂) seen := by
  intro l₁
  induction l₁ with
  | nil =>
    intro seen t l₂ n _ h2 h3
    rw [List.nil_append, collectSizes_cons, if_neg h2]
    simp only [h3]
    exact List.mem_cons_self _ _
  | cons a as ih =>
    intro seen t l₂ n h1 h2 h3
    rw [List.map_cons, List.mem_cons, not_or] at h1
    obtain ⟨hak, h1'⟩ := h1
    rw [List.cons_append, collectSizes_cons]
    by_cases ha : a.key ∈ seen
    · rw [if_pos ha]
      exact ih seen t l₂ n h1' h2 h3
    · rw [if_neg ha]
      have h2' : t.key ∉ a.key :: seen := by
        rw [List.mem_cons, not_or]; exact ⟨hak, h2⟩
      cases hs : a.serializedLen with
      | some m =>
        simp only [hs]
        exact List.mem_cons_of_mem _ (ih _ t l₂ n h1' h2' h3)
      | none =>
        simp only [hs]
        exact ih _ t l₂ n h1' h2' h3

/-- C9: the Lookup-Table Optimizer merges the two legs' tables (buy leg
first), deduplicates by key with the first occurrence winning, drops
tables whose serialization throws, sorts the survivors ascending by
serialized length, and returns the (at most) 2 smallest in
ascending-size order; it is a total function (never fails). -/
theorem c9_optimizer (alts1 alts2 : List Alt) :
    (optimizeAlts alts1 alts2).length =
      min 2 (collectSizes (alts1 ++ alts2) []).length ∧
    List.Perm (survivorsSorted alts1 alts2) (collectSizes (alts1 ++ alts2) []) ∧
    List.Pairwise sizeLE (survivorsSorted alts1 alts2) ∧
    (∀ s ∈ collectSizes (alts1 ++ alts2) [],
      s.alt ∈ alts1 ++ alts2 ∧ s.alt.serializedLen = some s.size) ∧
    ((collectSizes (alts1 ++ alts2) []).map (·.key)).Nodup ∧
    (∀ (l₁ : List Alt) (t : Alt) (l₂ : List Alt) (n : Nat),
      alts1 ++ alts2 = l₁ ++ t :: l₂ → t.key ∉ l₁.map (·.key) →
      t.serializedLen = some n →
      (⟨t, n, t.key⟩ : SizedAlt) ∈ collectSizes (alts1 ++ alts2) []) ∧
    (∀ x ∈ (survivorsSorted alts1 alts2).take 2,
      ∀ y ∈ (survivorsSorted alts1 alts2).drop 2, x.size ≤ y.size) ∧
    optimizeAlts alts1 alts2 =
      ((survivorsSorted alts1 alts2).take 2).map (·.alt) := by
  refine ⟨?_, ?_, ?_, ?_, ?_, ?_, ?_, rfl⟩
  · rw [optimizeAlts, List.length_map, List.length_take, survivorsSorted,
      (sortBySize_perm _).length_eq]
  · exact sortBySize_perm _
  · exact sortBySize_sorted _
  · intro s hs
    obtain ⟨h1, h2, _, _⟩ := collectSizes_mem _ _ s hs
    exact ⟨h1, h2⟩
  · exact collectSizes_keys_nodup _ _
  · intro l₁ t l₂ n heq h1 h3
    rw [heq]
    exact collectSizes_first l₁ [] t l₂ n h1 (by simp) h3
  · exact sorted_take_le_drop _ (sortBySize_sorted _) 2

/-- Witness for C9 at concrete inputs: with
`alts1 = [{K5, 500}, {K9, throws}]` and
`alts2 = [{K1, 50}, {K5, 999}, {K0, 10}]`, the first occurrence of key
`K5` (size 500) survives dedup (the later `{K5, 999}` does not). -/
theorem c9_witness :
    (⟨⟨"K5", some 500⟩, 500, "K5"⟩ : SizedAlt) ∈
      collectSizes ([⟨"K5", some 500⟩, ⟨"K9", none⟩] ++
        [⟨"K1", some 50⟩, ⟨"K5", some 999⟩, ⟨"K0", some 10⟩]) [] :=
  (c9_optimizer [⟨"K5", some 500⟩, ⟨"K9", none⟩]
      [⟨"K1", some 50⟩, ⟨"K5", some 999⟩, ⟨"K0", some 10⟩]).2.2.2.2.2.1
    [] ⟨"K5", some 500⟩
    [⟨"K9", none⟩, ⟨"K1", some 50⟩, ⟨"K5", some 999⟩, ⟨"K0", some 10⟩]
    500 rfl (by simp) rfl

-- =============== TRANSACTION ASSEMBLER (lines 164-235) ===============

/-- A `TransactionInstruction` (program id, account count, payload
length); the fields are opaque to the assembler, which only passes
instructions through to the compile step. -/
structure Instr where
  programId : String
  dataLen : Nat
  deriving DecidableEq, Repr

/-- An opaque `VersionedTransaction` handle; its byte-level content lives
behind the external `serialize` oracle. -/
structure Tx where
  id : Nat
  deriving DecidableEq, Repr

/-- Result record of `validateAndOptimizeTransaction` (lines 164-180). -/
structure ValidationResult where
  valid : Bool
  size : Nat
  error : Option String
  deriving DecidableEq, Repr

/-- `validateAndOptimizeTransaction` (lines 164-180): `serialize tx =
none` models `transaction.serialize()` throwing (caught at line 176,
yielding `{valid: false, size: 0}`); a size above `MAX_TX_SIZE` is
rejected as `TOO_LARGE`. -/
def validateAndOptimizeTransaction (serialize : Tx → Option Nat) (tx : Tx) :
    ValidationResult :=
  match serialize tx with
  | some size =>
    if size > MAX_TX_SIZE then ⟨false, size, some "TOO_LARGE"⟩
    else ⟨true, size, none⟩
  | none => ⟨false, 0, some "SERIALIZE_ERROR"⟩

/-- Strategy 1 of `createOptimizedTransaction` (lines 192-210): only
attempted when at least one lookup table is available; `compile … =
none` models `compileToV0Message`/`VersionedTransaction` throwing
(caught at lines 207-209). -/
def tryWithTables (compile : List Instr → List Alt → String → Option Tx)
    (serialize : Tx → Option Nat) (instructions : List Instr)
    (lookupTables : List Alt) (blockhash : String) : Option Tx :=
  if lookupTables.length > 0 then
    match compile instructions lookupTables blockhash with
    | some tx =>
      if (validateAndOptimizeTransaction serialize tx).valid then some tx else none
    | none => none
  else none

/-- Strategy 2 of `createOptimizedTransaction` (lines 212-228): compile
with an empty lookup-table set. -/
def tryWithoutTables (compile : List Instr → List Alt → String → Option Tx)
    (serialize : Tx → Option Nat) (instructions : List Instr)
    (blockhash : String) : Option Tx :=
  match compile instructions [] blockhash with
  | some tx =>
    if (validateAndOptimizeTransaction serialize tx).valid then some tx else none
  | none => none

/-- `createOptimizedTransaction` (lines 190-235): strategy 1 (with
tables) first, strategy 2 (no tables) as fallback, `null` when both
fail. -/
def createOptimizedTransaction (compile : List Instr → List Alt → String → Option Tx)
    (serialize : Tx → Option Nat) (instructions : List Instr)
    (lookupTables : List Alt) (blockhash : String) : Option Tx :=
  match tryWithTables compile serialize instructions lookupTables blockhash with
  | some tx => some tx
  | none => tryWithoutTables compile serialize instructions blockhash

theorem validate_valid (serialize : Tx → Option Nat) (tx : Tx)
    (hv : (validateAndOptimizeTransaction serialize tx).valid = true) :
    ∃ n, serialize tx = some n ∧ n ≤ MAX_TX_SIZE := by
  rw [validateAndOptimizeTransaction] at hv
  cases hs : serialize tx with
  | none => rw [hs] at hv; simp at hv
  | some n =>
    rw [hs] at hv
    by_cases hn : n > MAX_TX_SIZE
    · simp [hn] at hv
    · exact ⟨n, rfl, Nat.le_of_not_lt hn⟩

theorem tryWithTables_size (compile : List Instr → List Alt → String → Option Tx)
    (serialize : Tx → Option Nat) (instructions : List Instr)
    (lookupTables : List Alt) (blockhash : String) (tx : Tx)
    (h : tryWithTables compile serialize instructions lookupTables blockhash = some tx) :
    ∃ n, serialize tx = some n ∧ n ≤ MAX_TX_SIZE := by
  rw [tryWithTables] at h
  by_cases hl : lookupTables.length > 0
  · rw [if_pos hl] at h
    cases hc : compile instructions lookupTables blockhash with
    | none => rw [hc] at h; exact absurd h (by simp)
    | some tx' =>
      rw [hc] at h
      simp only at h
      by_cases hv : (validateAndOptimizeTransaction serialize tx').valid
      · rw [if_pos hv] at h
        have htx : tx' = tx := by injection h
        obtain ⟨n, hn1, hn2⟩ := validate_valid serialize tx' hv
        exact ⟨n, by rw [← htx]; exact hn1, hn2⟩
      · rw [if_neg hv] at h; exact absurd h (by simp)
  · rw [if_neg hl] at h; exact absurd h (by simp)

theorem tryWithoutTables_size (compile : List Instr → List Alt → String → Option Tx)
    (serialize : Tx → Option Nat) (instructions : List Instr)
    (blockhash : String) (tx : Tx)
    (h : tryWithoutTables compile serialize instructions blockhash = some tx) :
    ∃ n, serialize tx = some n ∧ n ≤ MAX_TX_SIZE := by
  rw [tryWithoutTables] at h
  cases hc : compile instructions [] blockhash with
  | none => rw [hc] at h; exact absurd h (by simp)
  | some tx' =>
    rw [hc] at h
    simp only at h
    by_cases hv : (validateAndOptimizeTransaction serialize tx').valid
    · rw [if_pos hv] at h
      have htx : tx' = tx := by injection h
      obtain ⟨n, hn1, hn2⟩ := validate_valid serialize tx' hv
      exact ⟨n, by rw [← htx]; exact hn1, hn2⟩
    · rw [if_neg hv] at h; exact absurd h (by simp)

/-- C3: the Transaction Assembler (i) never returns a candidate whose
serialized length exceeds 1232 bytes; (ii) skips the with-tables
strategy when no table is available; (iii) falls back to the no-table
compilation whenever the with-tables strategy yields nothing, so an
instruction set that fits the ceiling only without tables produces the
no-table candidate rather than a failure; (iv) returns `none` exactly
when neither strategy yields a transaction within the ceiling. -/
theorem c3_assembler (compile : List Instr → List Alt → String → Option Tx)
    (serialize : Tx → Option Nat) (instructions : List Instr)
    (lookupTables : List Alt) (blockhash : String) :
    (∀ tx, createOptimizedTransaction compile serialize instructions lookupTables blockhash = some tx →
      ∃ n, serialize tx = some n ∧ n ≤ MAX_TX_SIZE) ∧
    (lookupTables = [] →
      tryWithTables compile serialize instructions lookupTables blockhash = none) ∧
    (tryWithTables compile serialize instructions lookupTables blockhash = none →
      createOptimizedTransaction compile serialize instructions lookupTables blockhash =
        tryWithoutTables compile serialize instructions blockhash) ∧
    (∀ tx n, tryWithTables compile serialize instructions lookupTables blockhash = none →
      compile instructions [] blockhash = some tx → serialize tx = some n →
      n ≤ MAX_TX_SIZE →
      createOptimizedTransaction compile serialize instructions lookupTables blockhash = some tx) ∧
    (createOptimizedTransaction compile serialize instructions lookupTables blockhash = none ↔
      tryWithTables compile serialize instructions lookupTables blockhash = none ∧
      tryWithoutTables compile serialize instructions blockhash = none) := by
  refine ⟨?_, ?_, ?_, ?_, ?_⟩
  · intro tx h
    rw [createOptimizedTransaction] at h
    cases h1 : tryWithTables compile serialize instructions lookupTables blockhash with
    | some tx' =>
      rw [h1] at h
      have htx : tx' = tx := by injection h
      obtain ⟨n, hn1, hn2⟩ :=
        tryWithTables_size compile serialize instructions lookupTables blockhash tx' h1
      exact ⟨n, by rw [← htx]; exact hn1, hn2⟩
    | none =>
      rw [h1] at h
      exact tryWithoutTables_size compile serialize instructions blockhash tx h
  · intro h
    subst h
    rfl
  · intro h
    rw [createOptimizedTransaction, h]
  · intro tx n h1 h2 h3 h4
    rw [createOptimizedTransaction, h1, tryWithoutTables, h2]
    simp only [validateAndOptimizeTransaction, h3]
    rw [if_neg (Nat.not_lt.mpr h4)]
    simp
  · rw [createOptimizedTransaction]
    cases h1 : tryWithTables compile serialize instructions lookupTables blockhash with
    | some tx' => simp
    | none => simp

/-- Witness for C3: a concrete oracle where the with-tables compilation
is oversized (2000 bytes) and the no-table compilation fits (100 bytes):
the assembler returns the no-table variant. -/
theorem c3_witness :
    createOptimizedTransaction
      (fun _ tbls _ => some (if tbls.isEmpty then ⟨0⟩ else ⟨1⟩))
      (fun tx => some (if tx.id = 0 then 100 else 2000))
      [⟨"prog", 8⟩] [⟨"K1", some 40⟩] "bh" = some ⟨0⟩ :=
  (c3_assembler
      (fun _ tbls _ => some (if tbls.isEmpty then ⟨0⟩ else ⟨1⟩))
      (fun tx => some (if tx.id = 0 then 100 else 2000))
      [⟨"prog", 8⟩] [⟨"K1", some 40⟩] "bh").2.2.2.1
    ⟨0⟩ 100 (by decide) (by decide) (by decide) (by decide)

-- =============== SUBMISSION PIPELINE (sendTransactionWithSimulation, lines 268-292) ===============

/-- Trace events of the submission pipeline: a simulation RPC call with
its outcome (`simulateTransaction` returns a boolean, lines 243-258), a
broadcast RPC call (`connection.sendTransaction`, line 283), and a
backoff sleep. -/
inductive STEvent where
  | simReq (ok : Bool)
  | sendReq
  | sleepEv (ms : Nat)
  deriving DecidableEq, Repr

/-- The `for (let i = 0; i < retries; i++)` loop of
`sendTransactionWithSimulation` (lines 269-291), recursed over the list
of remaining attempt indices.  `sim i` is the outcome of the simulation
on attempt `i` (`simulateTransaction` never throws: its own catch
returns `false`); `send i = none` models `sendTransaction` throwing.
A failed simulation aborts only the attempt (sleep + continue, lines
275-280); the last attempt's failure throws (line 277 / 288). -/
def sendTxGo (sim : Nat → Bool) (send : Nat → Option String) (retries : Nat) :
    List Nat → JsResult String × List STEvent
  | [] => (.undef, [])
  | i :: rest =>
    if sim i then
      match send i with
      | some txid => (.ok txid, [.simReq true, .sendReq])
      | none =>
        if i = retries - 1 then (.thrown, [.simReq true, .sendReq])
        else
          ((sendTxGo sim send retries rest).1,
           .simReq true :: .sendReq :: .sleepEv (1000 * (i + 1)) ::
             (sendTxGo sim send retries rest).2)
    else
      if i = retries - 1 then (.thrown, [.simReq false])
      else
        ((sendTxGo sim send retries rest).1,
         .simReq false :: .sleepEv (1000 * (i + 1)) :: (sendTxGo sim send retries rest).2)

/-- `sendTransactionWithSimulation` (lines 268-292) with the RPC layer
abstracted as the per-attempt oracles `sim` and `send`. -/
def sendTransactionWithSimulation (sim : Nat → Bool) (send : Nat → Option String)
    (retries : Nat) : JsResult String × List STEvent :=
  sendTxGo sim send retries (List.range retries)

theorem sendTxGo_cons (sim : Nat → Bool) (send : Nat → Option String)
    (retries i : Nat) (rest : List Nat) :
    sendTxGo sim send retries (i :: rest) =
      if sim i then
        match send i with
        | some txid => (.ok txid, [.simReq true, .sendReq])
        | none =>
          if i = retries - 1 then (.thrown, [.simReq true, .sendReq])
          else
            ((sendTxGo sim send retries rest).1,
             .simReq true :: .sendReq :: .sleepEv (1000 * (i + 1)) ::
               (sendTxGo sim send retries rest).2)
      else
        if i = retries - 1 then (.thrown, [.simReq false])
        else
          ((sendTxGo sim send retries rest).1,
           .simReq false :: .sleepEv (1000 * (i + 1)) ::
             (sendTxGo sim send retries rest).2) := rfl

/-- A trace satisfies "simulate guards broadcast" when every broadcast
event is immediately preceded by a successful simulation event. -/
def simGuardsSend : List STEvent → Bool
  | [] => true
  | .simReq true :: .sendReq :: rest => simGuardsSend rest
  | .sendReq :: _ => false
  | _ :: rest => simGuardsSend rest

theorem sendTxGo_guard (sim : Nat → Bool) (send : Nat → Option String)
    (retries : Nat) : ∀ l, simGuardsSend (sendTxGo sim send retries l).2 = true := by
  intro l
  induction l with
  | nil => rfl
  | cons i rest ih =>
    rw [sendTxGo_cons]
    by_cases hsim : sim i
    · rw [if_pos hsim]
      cases hs : send i with
      | some txid => rfl
      | none =>
        simp only
        by_cases hl : i = retries - 1
        · rw [if_pos hl]; rfl
        · rw [if_neg hl]; exact ih
    · rw [if_neg hsim]
      by_cases hl : i = retries - 1
      · rw [if_pos hl]; rfl
      · rw [if_neg hl]; exact ih

theorem sendTxGo_allSimFail (sim : Nat → Bool) (send : Nat → Option String)
    (retries : Nat) :
    ∀ k i, i + (k + 1) = retries → (∀ j, j < retries → sim j = false) →
      (sendTxGo sim send retries (List.range' i (k + 1))).1 = .thrown ∧
      STEvent.sendReq ∉ (sendTxGo sim send retries (List.range' i (k + 1))).2 := by
  intro k
  induction k with
  | zero =>
    intro i hi hf
    have h1 : sim i = false := hf i (by omega)
    have h2 : i = retries - 1 := by omega
    rw [List.range'_succ, sendTxGo_cons, if_neg (by rw [h1]; exact Bool.false_ne_true),
      if_pos h2]
    simp
  | succ k ih =>
    intro i hi hf
    have h1 : sim i = false := hf i (by omega)
    have h2 : ¬ (i = retries - 1) := by omega
    obtain ⟨ih1, ih2⟩ := ih (i + 1) (by omega) hf
    rw [List.range'_succ, sendTxGo_cons, if_neg (by rw [h1]; exact Bool.false_ne_true),
      if_neg h2]
    refine ⟨ih1, ?_⟩
    intro hc
    simp only [List.mem_cons] at hc
    rcases hc with hc | hc | hc
    · exact absurd hc (by simp)
    · exact absurd hc (by simp)
    · exact ih2 hc

/-- C6: in every attempt of the Submission Pipeline, broadcast is only
ever issued immediately after a successful simulation of the same
attempt; when the simulation fails on all attempts the call throws and
no broadcast is ever issued; and when the simulation fails on attempt 1
of 3 and succeeds on attempt 2, the trace starts with the failed
simulation, the 1000 ms backoff, exactly one more simulation, and only
then a broadcast. -/
theorem c6_submission (sim : Nat → Bool) (send : Nat → Option String) (retries : Nat) :
    simGuardsSend (sendTransactionWithSimulation sim send retries).2 = true ∧
    (1 ≤ retries → (∀ j, j < retries → sim j = false) →
      (sendTransactionWithSimulation sim send retries).1 = .thrown ∧
      STEvent.sendReq ∉ (sendTransactionWithSimulation sim send retries).2) ∧
    (retries = 3 → sim 0 = false → sim 1 = true →
      ∃ rest, (sendTransactionWithSimulation sim send retries).2 =
        .simReq false :: .sleepEv 1000 :: .simReq true :: .sendReq :: rest) := by
  refine ⟨?_, ?_, ?_⟩
  · exact sendTxGo_guard sim send retries (List.range retries)
  · intro h1 h2
    obtain ⟨m, rfl⟩ : ∃ m, retries = m + 1 := ⟨retries - 1, by omega⟩
    have h := sendTxGo_allSimFail sim send (m + 1) m 0 (by omega) h2
    rw [sendTransactionWithSimulation, List.range_eq_range']
    exact h
  · intro h3 hs0 hs1
    subst h3
    have hr : List.range 3 = [0, 1, 2] := rfl
    rw [sendTransactionWithSimulation, hr, sendTxGo_cons,
      if_neg (by rw [hs0]; exact Bool.false_ne_true), if_neg (by omega),
      sendTxGo_cons, if_pos hs1]
    cases hsend : send 1 with
    | some txid => exact ⟨[], rfl⟩
    | none =>
      simp only
      rw [if_neg (by omega)]
      exact ⟨_, rfl⟩

/-- Witness for C6: with a simulation that fails on attempt 0 and
succeeds from attempt 1, and a broadcast that succeeds, the pipeline's
trace is failed-sim, 1000 ms backoff, successful sim, then broadcast. -/
theorem c6_witness :
    ∃ rest, (sendTransactionWithSimulation (fun i => decide (1 ≤ i))
        (fun _ => some "txid") 3).2 =
      .simReq false :: .sleepEv 1000 :: .simReq true :: .sendReq :: rest :=
  (c6_submission (fun i => decide (1 ≤ i)) (fun _ => some "txid") 3).2.2
    rfl rfl rfl

-- =============== MAIN TRADING LOGIC (checkAndTrade, lines 301-395) ===============

/-- The notification payload built at lines 320-325.  The source includes
the raw base58 private key as a fourth field (`privateKey:
PRIVATE_KEY_BASE58`, line 324); the embedding reproduces the source. -/
structure Opportunity where
  profit : Rat
  inputAmount : Rat
  fees : Rat
  privateKey : String
  deriving DecidableEq, Repr

/-- The two trading parameters the cycle logic depends on
(`INPUT_USDC`, `MIN_PROFIT_USDC`); kept as parameters so the per-cycle
theorems quantify over all input amounts and thresholds. -/
structure Config where
  inputAmount : Nat
  minProfit : Nat
  deriving DecidableEq, Repr

/-- The source's concrete configuration (lines 33-34). -/
def defaultConfig : Config := ⟨INPUT_USDC, MIN_PROFIT_USDC⟩

/-- The `opportunity` object of lines 320-325: profit and input amount
are scaled by 1e6 for display, fees is the constant estimate `0.000005`,
and the raw private key is embedded. -/
def mkOpportunity (cfg : Config) (sellOut : Nat) : Opportunity :=
  { profit := ((sellOut : Rat) - (cfg.inputAmount : Rat)) / 1000000
    inputAmount := (cfg.inputAmount : Rat) / 1000000
    fees := 5 / 1000000
    privateKey := PRIVATE_KEY_BASE58 }

/-- Observable events of one `checkAndTrade` cycle, in program order. -/
inductive Event where
  | quoteReq (inMint outMint : String) (amount : Nat)
  | log (msg : String)
  | notify (o : Opportunity)
  | swapReq
  | blockhashReq
  | simEv (ok : Bool)
  | sendEv
  | sleepEv (ms : Nat)
  | confirmReq (sig : Option String)
  deriving DecidableEq, Repr

/-- Submission-pipeline events viewed as cycle events. -/
def liftSTEvent : STEvent → Event
  | .simReq ok => .simEv ok
  | .sendReq => .sendEv
  | .sleepEv ms => .sleepEv ms

/-- Oracles for the external world one cycle touches.  `quoteBuy` and
`quoteSell` are the overall outcomes of the two retried `getQuote`
calls (lines 306-307); `swapBuy`/`swapSell` the outcomes of the two
`getSwapPayload` calls (lines 329-330), each an instruction list plus
lookup tables; `latestBlockhash` models line 360; `compile`/`serialize`
the transaction library as in the Assembler; `sim`/`send` the
per-attempt submission oracles; `confirm` the outcome of
`connection.confirmTransaction` (`false` = the promise rejects).  The
`Option String` given to `confirm` is the signature (`none` models the
unreachable case of an `undefined` txid). -/
structure Env where
  quoteBuy : JsResult Nat
  quoteSell : Nat → JsResult Nat
  swapBuy : JsResult (List Instr × List Alt)
  swapSell : JsResult (List Instr × List Alt)
  latestBlockhash : JsResult (String × Nat)
  compile : List Instr → List Alt → String → Option Tx
  serialize : Tx → Option Nat
  sim : Nat → Bool
  send : Nat → Option String
  confirm : Option String → Bool

/-- `await`ing a sub-call inside the `try` body: a thrown error
propagates (with the trace so far); an `undefined` result also throws,
because every use site immediately accesses a property of the result
(`quoteBuy.outAmount`, destructuring, …), which throws on `undefined`. -/
def bindJs {α : Type} (r : JsResult α) (trace : List Event)
    (k : α → JsResult Bool × List Event) : JsResult Bool × List Event :=
  match r with
  | .ok a => k a
  | .thrown => (.thrown, trace)
  | .undef => (.thrown, trace)

/-- The `try` body of `checkAndTrade` (lines 302-390), with its trace of
external calls.  Traces record a call event before the call's outcome is
examined, so a throwing call still appears in the trace. -/
def checkAndTradeBody (cfg : Config) (env : Env) : JsResult Bool × List Event :=
  let t1 := [Event.quoteReq USDC_MINT WSOL_MINT cfg.inputAmount]
  bindJs env.quoteBuy t1 fun buyOut =>
  let t2 := t1 ++ [Event.quoteReq WSOL_MINT USDC_MINT buyOut]
  bindJs (env.quoteSell buyOut) t2 fun sellOut =>
  if sellOut < cfg.inputAmount + cfg.minProfit then
    (.ok false, t2 ++ [Event.log "insufficient profit"])
  else
    let t3 := t2 ++ [Event.notify (mkOpportunity cfg sellOut)]
    let t4 := t3 ++ [Event.swapReq]
    bindJs env.swapBuy t4 fun p1 =>
    let t5 := t4 ++ [Event.swapReq]
    bindJs env.swapSell t5 fun p2 =>
    let optimizedAlts := optimizeAlts p1.2 p2.2
    let t6 := t5 ++ [Event.blockhashReq]
    bindJs env.latestBlockhash t6 fun bh =>
    match createOptimizedTransaction env.compile env.serialize
        (p1.1 ++ p2.1) optimizedAlts bh.1 with
    | none => (.ok false, t6)
    | some _tx =>
      let sres := sendTransactionWithSimulation env.sim env.send MAX_RETRIES
      let t7 := t6 ++ sres.2.map liftSTEvent
      match sres.1 with
      | .ok txid =>
        let t8 := t7 ++ [Event.confirmReq (some txid)]
        if env.confirm (some txid) then (.ok true, t8) else (.ok false, t8)
      | .thrown => (.ok false, t7)
      | .undef =>
        let t8 := t7 ++ [Event.confirmReq none]
        if env.confirm none then (.ok true, t8) else (.ok false, t8)

/-- `checkAndTrade` (lines 301-395): the outer catch (lines 391-394)
converts any thrown error into a returned `false`. -/
def checkAndTrade (cfg : Config) (env : Env) : JsResult Bool × List Event :=
  match checkAndTradeBody cfg env with
  | (.thrown, t) => (.ok false, t)
  | other => other

-- =============== MAIN LOOP (IIFE, lines 403-438) ===============

/-- `const maxConsecutiveErrors = 5` (line 415). -/
def maxConsecutiveErrors : Nat := 5

/-- One iteration of the `while (true)` loop (lines 417-437) given the
current `consecutiveErrors` counter and the outcome of
`await checkAndTrade()`: returns the new counter, whether the `catch`
branch ran, and the sleeps performed (cooldown 30000 inside the catch
when the counter reaches the threshold, then the fixed 5000 cadence).
A returned `false` (or falsy `undefined`) only increments the counter
(lines 420-424); the threshold check lives only inside the catch
(lines 425-433). -/
def mainLoopIter (consecutiveErrors : Nat) (r : JsResult Bool) :
    Nat × Bool × List Nat :=
  match r with
  | .ok true => (0, false, [5000])
  | .ok false => (consecutiveErrors + 1, false, [5000])
  | .undef => (consecutiveErrors + 1, false, [5000])
  | .thrown =>
    if consecutiveErrors + 1 ≥ maxConsecutiveErrors then (0, true, [30000, 5000])
    else (consecutiveErrors + 1, true, [5000])

/-- Folding `mainLoopIter` over a sequence of cycle outcomes: final
counter and concatenated sleeps. -/
def mainLoopRun : Nat → List (JsResult Bool) → Nat × List Nat
  | c, [] => (c, [])
  | c, r :: rs =>
    let step := mainLoopIter c r
    let rest := mainLoopRun step.1 rs
    (rest.1, step.2.2 ++ rest.2)

/-- C1 counterexample: five consecutive `Failed` outcomes delivered as
returned results (`checkAndTrade` resolving `false`) drive the counter
to 5, yet the loop's next action is the ordinary 5000 ms cadence sleep —
no 30000 ms cooldown ever occurs and the counter is not reset, because
the threshold check lives only in the catch branch.  This refutes the
claim's "regardless of whether each failure was a returned Failed result
or a thrown exception". -/
theorem c1_counterexample :
    (mainLoopRun 0 (List.replicate 5 (JsResult.ok false))).1 = 5 ∧
    (mainLoopRun 0 (List.replicate 5 (JsResult.ok false))).2 =
      List.replicate 5 5000 ∧
    30000 ∉ (mainLoopRun 0 (List.replicate 5 (JsResult.ok false))).2 := by
  decide

/-- C1 (amended): the counter resets to 0 on a `Confirmed` outcome and
increments on every `Failed` outcome; but the 30000 ms cooldown (with
counter reset) triggers only when the counter reaches the threshold 5
via a thrown exception caught by the loop.  A `Failed` outcome returned
as a value increments the counter past the threshold without any
cooldown; five consecutive thrown failures do produce the cooldown and
reset. -/
theorem c1_amended_loop (c : Nat) :
    (mainLoopIter c (.ok true)).1 = 0 ∧
    (mainLoopIter c (.ok false)).1 = c + 1 ∧
    (mainLoopIter c (.ok false)).2.2 = [5000] ∧
    (mainLoopIter c (.ok false)).2.1 = false ∧
    (c + 1 < maxConsecutiveErrors →
      mainLoopIter c .thrown = (c + 1, true, [5000])) ∧
    (maxConsecutiveErrors ≤ c + 1 →
      mainLoopIter c .thrown = (0, true, [30000, 5000])) ∧
    mainLoopRun 0 (List.replicate 5 JsResult.thrown) =
      (0, [5000, 5000, 5000, 5000, 30000, 5000]) := by
  refine ⟨rfl, rfl, rfl, rfl, ?_, ?_, by decide⟩
  · intro h
    rw [show mainLoopIter c .thrown =
        if c + 1 ≥ maxConsecutiveErrors then (0, true, [30000, 5000])
        else (c + 1, true, [5000]) from rfl]
    rw [if_neg (Nat.not_le.mpr h)]
  · intro h
    rw [show mainLoopIter c .thrown =
        if c + 1 ≥ maxConsecutiveErrors then (0, true, [30000, 5000])
        else (c + 1, true, [5000]) from rfl]
    rw [if_pos h]

/-- Witness for C1's amended theorem: at counter 4 a caught exception
reaches the threshold and produces the cooldown and reset. -/
theorem c1_witness :
    mainLoopIter 4 JsResult.thrown = (0, true, [30000, 5000]) :=
  (c1_amended_loop 4).2.2.2.2.2.1 (by decide)

theorem lift_ne_notify (e : STEvent) (o : Opportunity) :
    liftSTEvent e ≠ Event.notify o := by
  cases e <;> simp [liftSTEvent]

theorem lift_ne_confirm (e : STEvent) (sg : Option String) :
    liftSTEvent e ≠ Event.confirmReq sg := by
  cases e <;> simp [liftSTEvent]

theorem notify_not_mem_lift (o : Opportunity) (l : List STEvent) :
    Event.notify o ∉ l.map liftSTEvent := by
  intro h
  rcases List.mem_map.mp h with ⟨e, _, he⟩
  cases e <;> simp [liftSTEvent] at he

theorem confirm_not_mem_lift (sg : Option String) (l : List STEvent) :
    Event.confirmReq sg ∉ l.map liftSTEvent := by
  intro h
  rcases List.mem_map.mp h with ⟨e, _, he⟩
  cases e <;> simp [liftSTEvent] at he

theorem append_singleton_middle {α : Type} {l pre post : List α} {x y : α}
    (h : l ++ [x] = pre ++ y :: post) (hy : y ∉ l) : post = [] := by
  rcases List.eq_nil_or_concat post with rfl | ⟨post', z, rfl⟩
  · rfl
  · exfalso
    rw [List.concat_eq_append] at h
    have h2 : l ++ [x] = (pre ++ y :: post') ++ [z] := by rw [h]; simp
    obtain ⟨h4, -⟩ := List.append_inj' h2 rfl
    apply hy
    rw [h4]
    exact List.mem_append_right _ (List.mem_cons_self _ _)

/-- Exhaustive case analysis of one `checkAndTrade` cycle: either a quote
throws, the profit gate fails, some later stage fails after the
notification, or the cycle reaches confirmation.  Every branch records
the result, the exact trace shape, and the relevant oracle facts. -/
theorem checkAndTrade_cases (cfg : Config) (env : Env) :
    ((env.quoteBuy = .thrown ∨ env.quoteBuy = .undef) ∧
      checkAndTrade cfg env =
        (.ok false, [.quoteReq USDC_MINT WSOL_MINT cfg.inputAmount])) ∨
    (∃ b, env.quoteBuy = .ok b ∧
      (env.quoteSell b = .thrown ∨ env.quoteSell b = .undef) ∧
      checkAndTrade cfg env =
        (.ok false, [.quoteReq USDC_MINT WSOL_MINT cfg.inputAmount,
          .quoteReq WSOL_MINT USDC_MINT b])) ∨
    (∃ b s, env.quoteBuy = .ok b ∧ env.quoteSell b = .ok s ∧
      s < cfg.inputAmount + cfg.minProfit ∧
      checkAndTrade cfg env =
        (.ok false, [.quoteReq USDC_MINT WSOL_MINT cfg.inputAmount,
          .quoteReq WSOL_MINT USDC_MINT b, .log "insufficient profit"])) ∨
    (∃ b s rest, env.quoteBuy = .ok b ∧ env.quoteSell b = .ok s ∧
      cfg.inputAmount + cfg.minProfit ≤ s ∧
      checkAndTrade cfg env =
        (.ok false, [.quoteReq USDC_MINT WSOL_MINT cfg.inputAmount,
          .quoteReq WSOL_MINT USDC_MINT b, .notify (mkOpportunity cfg s),
          .swapReq] ++ rest) ∧
      (∀ o, Event.notify o ∉ rest) ∧ (∀ sg, Event.confirmReq sg ∉ rest)) ∨
    (∃ b s rest sg, env.quoteBuy = .ok b ∧ env.quoteSell b = .ok s ∧
      cfg.inputAmount + cfg.minProfit ≤ s ∧
      checkAndTrade cfg env =
        ((if env.confirm sg then .ok true else .ok false),
         ([.quoteReq USDC_MINT WSOL_MINT cfg.inputAmount,
           .quoteReq WSOL_MINT USDC_MINT b, .notify (mkOpportunity cfg s),
           .swapReq] ++ rest) ++ [.confirmReq sg]) ∧
      (∀ o, Event.notify o ∉ rest) ∧ (∀ sg', Event.confirmReq sg' ∉ rest)) := by
  cases hqb : env.quoteBuy with
  | thrown =>
    exact Or.inl ⟨Or.inl rfl, by simp [checkAndTrade, checkAndTradeBody, bindJs, hqb]⟩
  | undef =>
    exact Or.inl ⟨Or.inr rfl, by simp [checkAndTrade, checkAndTradeBody, bindJs, hqb]⟩
  | ok b =>
    cases hqs : env.quoteSell b with
    | thrown =>
      exact Or.inr (Or.inl ⟨b, rfl, Or.inl hqs,
        by simp [checkAndTrade, checkAndTradeBody, bindJs, hqb, hqs]⟩)
    | undef =>
      exact Or.inr (Or.inl ⟨b, rfl, Or.inr hqs,
        by simp [checkAndTrade, checkAndTradeBody, bindJs, hqb, hqs]⟩)
    | ok s =>
      by_cases hp : s < cfg.inputAmount + cfg.minProfit
      · exact Or.inr (Or.inr (Or.inl ⟨b, s, rfl, hqs, hp,
          by simp [checkAndTrade, checkAndTradeBody, bindJs, hqb, hqs, hp]⟩))
      · cases hsb : env.swapBuy with
        | thrown =>
          exact Or.inr (Or.inr (Or.inr (Or.inl ⟨b, s, [], rfl, hqs,
            Nat.le_of_not_lt hp,
            by simp [checkAndTrade, checkAndTradeBody, bindJs, hqb, hqs, hp, hsb],
            by simp, by simp⟩)))
        | undef =>
          exact Or.inr (Or.inr (Or.inr (Or.inl ⟨b, s, [], rfl, hqs,
            Nat.le_of_not_lt hp,
            by simp [checkAndTrade, checkAndTradeBody, bindJs, hqb, hqs, hp, hsb],
            by simp, by simp⟩)))
        | ok p1 =>
          cases hss : env.swapSell with
          | thrown =>
            exact Or.inr (Or.inr (Or.inr (Or.inl ⟨b, s, [.swapReq], rfl, hqs,
              Nat.le_of_not_lt hp,
              by simp [checkAndTrade, checkAndTradeBody, bindJs, hqb, hqs, hp, hsb, hss],
              by simp, by simp⟩)))
          | undef =>
            exact Or.inr (Or.inr (Or.inr (Or.inl ⟨b, s, [.swapReq], rfl, hqs,
              Nat.le_of_not_lt hp,
              by simp [checkAndTrade, checkAndTradeBody, bindJs, hqb, hqs, hp, hsb, hss],
              by simp, by simp⟩)))
          | ok p2 =>
            cases hbh : env.latestBlockhash with
            | thrown =>
              exact Or.inr (Or.inr (Or.inr (Or.inl ⟨b, s,
                [.swapReq, .blockhashReq], rfl, hqs, Nat.le_of_not_lt hp,
                by simp [checkAndTrade, checkAndTradeBody, bindJs, hqb, hqs, hp,
                  hsb, hss, hbh],
                by simp, by simp⟩)))
            | undef =>
              exact Or.inr (Or.inr (Or.inr (Or.inl ⟨b, s,
                [.swapReq, .blockhashReq], rfl, hqs, Nat.le_of_not_lt hp,
                by simp [checkAndTrade, checkAndTradeBody, bindJs, hqb, hqs, hp,
                  hsb, hss, hbh],
                by simp, by simp⟩)))
            | ok bh =>
              cases hct : createOptimizedTransaction env.compile env.serialize
                  (p1.1 ++ p2.1) (optimizeAlts p1.2 p2.2) bh.1 with
              | none =>
                exact Or.inr (Or.inr (Or.inr (Or.inl ⟨b, s,
                  [.swapReq, .blockhashReq], rfl, hqs, Nat.le_of_not_lt hp,
                  by simp [checkAndTrade, checkAndTradeBody, bindJs, hqb, hqs, hp,
                    hsb, hss, hbh, hct],
                  by simp, by simp⟩)))
              | some tx =>
                cases hsr : (sendTransactionWithSimulation env.sim env.send MAX_RETRIES).1 with
                | thrown =>
                  exact Or.inr (Or.inr (Or.inr (Or.inl ⟨b, s,
                    [.swapReq, .blockhashReq] ++
                      (sendTransactionWithSimulation env.sim env.send MAX_RETRIES).2.map liftSTEvent,
                    rfl, hqs, Nat.le_of_not_lt hp,
                    by simp [checkAndTrade, checkAndTradeBody, bindJs, hqb, hqs, hp,
                      hsb, hss, hbh, hct, hsr],
                    by simp [lift_ne_notify],
                    by simp [lift_ne_confirm]⟩)))
                | ok txid =>
                  cases hcf : env.confirm (some txid) with
                  | true =>
                    exact Or.inr (Or.inr (Or.inr (Or.inr ⟨b, s,
                      [.swapReq, .blockhashReq] ++
                        (sendTransactionWithSimulation env.sim env.send MAX_RETRIES).2.map liftSTEvent,
                      some txid, rfl, hqs, Nat.le_of_not_lt hp,
                      by simp [checkAndTrade, checkAndTradeBody, bindJs, hqb, hqs, hp,
                        hsb, hss, hbh, hct, hsr, hcf],
                      by simp [lift_ne_notify],
                      by simp [lift_ne_confirm]⟩)))
                  | false =>
                    exact Or.inr (Or.inr (Or.inr (Or.inr ⟨b, s,
                      [.swapReq, .blockhashReq] ++
                        (sendTransactionWithSimulation env.sim env.send MAX_RETRIES).2.map liftSTEvent,
                      some txid, rfl, hqs, Nat.le_of_not_lt hp,
                      by simp [checkAndTrade, checkAndTradeBody, bindJs, hqb, hqs, hp,
                        hsb, hss, hbh, hct, hsr, hcf],
                      by simp [lift_ne_notify],
                      by simp [lift_ne_confirm]⟩)))
                | undef =>
                  cases hcf : env.confirm none with
                  | true =>
                    exact Or.inr (Or.inr (Or.inr (Or.inr ⟨b, s,
                      [.swapReq, .blockhashReq] ++
                        (sendTransactionWithSimulation env.sim env.send MAX_RETRIES).2.map liftSTEvent,
                      none, rfl, hqs, Nat.le_of_not_lt hp,
                      by simp [checkAndTrade, checkAndTradeBody, bindJs, hqb, hqs, hp,
                        hsb, hss, hbh, hct, hsr, hcf],
                      by simp [lift_ne_notify],
                      by simp [lift_ne_confirm]⟩)))
                  | false =>
                    exact Or.inr (Or.inr (Or.inr (Or.inr ⟨b, s,
                      [.swapReq, .blockhashReq] ++
                        (sendTransactionWithSimulation env.sim env.send MAX_RETRIES).2.map liftSTEvent,
                      none, rfl, hqs, Nat.le_of_not_lt hp,
                      by simp [checkAndTrade, checkAndTradeBody, bindJs, hqb, hqs, hp,
                        hsb, hss, hbh, hct, hsr, hcf],
                      by simp [lift_ne_notify],
                      by simp [lift_ne_confirm]⟩)))

theorem eq_append_cons_mem {α : Type} {l pre post : List α} {y : α}
    (h : l = pre ++ y :: post) : y ∈ l := by
  rw [h]
  exact List.mem_append_right _ (List.mem_cons_self _ _)

/-- Oracle environment exhibiting C2's failing input: buy quote 60000,
sell quote 10001300 (net 1300 ≥ threshold 1200, so the notification
fires); the later stages fail, which does not matter for the payload. -/
def envC2 : Env :=
  { quoteBuy := .ok 60000
    quoteSell := fun _ => .ok 10001300
    swapBuy := .thrown
    swapSell := .thrown
    latestBlockhash := .thrown
    compile := fun _ _ _ => none
    serialize := fun _ => none
    sim := fun _ => false
    send := fun _ => none
    confirm := fun _ => false }

/-- C2 (code bug): every notification payload the cycle ever emits
carries the raw base58 private key in its `privateKey` field (the
source builds the payload with `privateKey: PRIVATE_KEY_BASE58`,
line 324), and a concrete profitable cycle does emit such a payload —
contradicting the claim that the payload consists only of profit, input
amount and fee estimate and never includes the signing credential. -/
theorem c2_payload_contains_private_key :
    (∀ cfg env o, Event.notify o ∈ (checkAndTrade cfg env).2 →
      o.privateKey = PRIVATE_KEY_BASE58) ∧
    Event.notify (mkOpportunity defaultConfig 10001300) ∈
      (checkAndTrade defaultConfig envC2).2 ∧
    PRIVATE_KEY_BASE58 ≠ "" := by
  refine ⟨?_, ?_, by decide⟩
  · intro cfg env o hmem
    rcases checkAndTrade_cases cfg env with
      ⟨-, hct⟩ | ⟨b, -, -, hct⟩ | ⟨b, s, -, -, -, hct⟩ |
      ⟨b, s, rest, -, -, -, hct, hno, -⟩ | ⟨b, s, rest, sg, -, -, -, hct, hno, -⟩
    · rw [hct] at hmem; simp at hmem
    · rw [hct] at hmem; simp at hmem
    · rw [hct] at hmem; simp at hmem
    · rw [hct] at hmem
      simp only [List.append_eq, List.mem_append, List.mem_cons,
        List.mem_singleton, List.not_mem_nil, or_false] at hmem
      rcases hmem with hmem | hmem
      · simp at hmem
        subst hmem
        rfl
      · exact absurd hmem (hno o)
    · rw [hct] at hmem
      simp only [List.append_eq, List.mem_append, List.mem_cons,
        List.mem_singleton, List.not_mem_nil, or_false] at hmem
      rcases hmem with (hmem | hmem) | hmem
      · simp at hmem
        subst hmem
        rfl
      · exact absurd hmem (hno o)
      · simp at hmem
  · rcases checkAndTrade_cases defaultConfig envC2 with
      ⟨hq, -⟩ | ⟨b, hb, hq, -⟩ | ⟨b, s, hb, hs, hlt, -⟩ |
      ⟨b, s, rest, hb, hs, -, hct, -, -⟩ | ⟨b, s, rest, sg, hb, hs, -, hct, -, -⟩
    · rcases hq with hq | hq <;> exact absurd hq (by decide)
    · rcases hq with hq | hq <;> exact absurd hq (by simp [envC2])
    · exfalso
      simp only [envC2] at hs
      have hss : s = 10001300 := by
        have := hs
        simp at this
        omega
      subst hss
      exact absurd hlt (by decide)
    · simp only [envC2] at hs
      have hss : s = 10001300 := by
        have := hs
        simp at this
        omega
      subst hss
      rw [hct]
      simp
    · simp only [envC2] at hs
      have hss : s = 10001300 := by
        have := hs
        simp at this
        omega
      subst hss
      rw [hct]
      simp

/-- C4: the cycle requests the sell quote with the buy quote's output as
its input; it reaches instruction building only when
`sellOut ≥ inputAmount + minProfit` (exact integer comparison); and on
insufficient profit it ends as a returned `false` with the
"insufficient profit" log and zero instruction-building calls. -/
theorem c4_profit_gate (cfg : Config) (env : Env) :
    (∀ b, env.quoteBuy = .ok b →
      Event.quoteReq WSOL_MINT USDC_MINT b ∈ (checkAndTrade cfg env).2) ∧
    (∀ b s, env.quoteBuy = .ok b → env.quoteSell b = .ok s →
      s < cfg.inputAmount + cfg.minProfit →
      (checkAndTrade cfg env).1 = JsResult.ok false ∧
      Event.swapReq ∉ (checkAndTrade cfg env).2 ∧
      Event.log "insufficient profit" ∈ (checkAndTrade cfg env).2) ∧
    (Event.swapReq ∈ (checkAndTrade cfg env).2 →
      ∃ b s, env.quoteBuy = .ok b ∧ env.quoteSell b = .ok s ∧
        cfg.inputAmount + cfg.minProfit ≤ s) := by
  refine ⟨?_, ?_, ?_⟩
  · intro b hb
    rcases checkAndTrade_cases cfg env with
      ⟨hq, hct⟩ | ⟨b', hb', -, hct⟩ | ⟨b', s, hb', -, -, hct⟩ |
      ⟨b', s, rest, hb', -, -, hct, -, -⟩ | ⟨b', s, rest, sg, hb', -, -, hct, -, -⟩
    · rcases hq with hq | hq <;> rw [hb] at hq <;> exact absurd hq (by simp)
    all_goals {
      rw [hb] at hb'
      have hbb : b' = b := by injection hb' with h; exact h.symm
      subst hbb
      rw [hct]
      simp
    }
  · intro b s hb hs hlt
    rcases checkAndTrade_cases cfg env with
      ⟨hq, hct⟩ | ⟨b', hb', hq, hct⟩ | ⟨b', s', hb', hs', -, hct⟩ |
      ⟨b', s', rest, hb', hs', hle, hct, -, -⟩ |
      ⟨b', s', rest, sg, hb', hs', hle, hct, -, -⟩
    · rcases hq with hq | hq <;> rw [hb] at hq <;> exact absurd hq (by simp)
    · rw [hb] at hb'
      have hbb : b' = b := by injection hb' with h; exact h.symm
      subst hbb
      rcases hq with hq | hq <;> rw [hs] at hq <;> exact absurd hq (by simp)
    · rw [hb] at hb'
      have hbb : b' = b := by injection hb' with h; exact h.symm
      subst hbb
      rw [hs] at hs'
      have hss : s' = s := by injection hs' with h; exact h.symm
      subst hss
      refine ⟨by rw [hct], ?_, by rw [hct]; simp⟩
      rw [hct]
      simp
    all_goals {
      rw [hb] at hb'
      have hbb : b' = b := by injection hb' with h; exact h.symm
      subst hbb
      rw [hs] at hs'
      have hss : s' = s := by injection hs' with h; exact h.symm
      subst hss
      omega
    }
  · intro hsw
    rcases checkAndTrade_cases cfg env with
      ⟨-, hct⟩ | ⟨b', hb', -, hct⟩ | ⟨b', s', hb', hs', -, hct⟩ |
      ⟨b', s', rest, hb', hs', hle, hct, -, -⟩ |
      ⟨b', s', rest, sg, hb', hs', hle, hct, -, -⟩
    · rw [hct] at hsw; simp at hsw
    · rw [hct] at hsw; simp at hsw
    · rw [hct] at hsw; simp at hsw
    · exact ⟨b', s', hb', hs', hle⟩
    · exact ⟨b', s', hb', hs', hle⟩

/-- Oracle environment for C4's witness: an unprofitable cycle
(sell quote 10000500 < 10000000 + 1200). -/
def envC4 : Env :=
  { quoteBuy := .ok 60000
    quoteSell := fun _ => .ok 10000500
    swapBuy := .thrown
    swapSell := .thrown
    latestBlockhash := .thrown
    compile := fun _ _ _ => none
    serialize := fun _ => none
    sim := fun _ => false
    send := fun _ => none
    confirm := fun _ => false }

/-- Witness for C4: the unprofitable cycle returns `false`, makes no
instruction-building call, and logs the insufficient-profit reason. -/
theorem c4_witness :
    (checkAndTrade defaultConfig envC4).1 = JsResult.ok false ∧
    Event.swapReq ∉ (checkAndTrade defaultConfig envC4).2 ∧
    Event.log "insufficient profit" ∈ (checkAndTrade defaultConfig envC4).2 :=
  (c4_profit_gate defaultConfig envC4).2.1 60000 10000500 rfl rfl (by decide)

/-- C8: once the cycle issues its confirmation wait, nothing further
happens in the cycle — no event of any kind (in particular no broadcast
and no simulation) follows the confirmation call in the trace; and when
confirmation always fails the cycle is reported as `Failed`
(never `true`). -/
theorem c8_post_broadcast (cfg : Config) (env : Env) :
    (∀ pre sig post,
      (checkAndTrade cfg env).2 = pre ++ Event.confirmReq sig :: post →
      post = []) ∧
    ((∀ o, env.confirm o = false) →
      (checkAndTrade cfg env).1 ≠ JsResult.ok true) := by
  refine ⟨?_, ?_⟩
  · intro pre sig post hpp
    rcases checkAndTrade_cases cfg env with
      ⟨-, hct⟩ | ⟨b, -, -, hct⟩ | ⟨b, s, -, -, -, hct⟩ |
      ⟨b, s, rest, -, -, -, hct, -, hnc⟩ | ⟨b, s, rest, sg', -, -, -, hct, -, hnc⟩
    · exfalso
      have hm := eq_append_cons_mem hpp
      rw [hct] at hm
      simp at hm
    · exfalso
      have hm := eq_append_cons_mem hpp
      rw [hct] at hm
      simp at hm
    · exfalso
      have hm := eq_append_cons_mem hpp
      rw [hct] at hm
      simp at hm
    · exfalso
      have hm := eq_append_cons_mem hpp
      rw [hct] at hm
      simp only [List.append_eq, List.mem_append, List.mem_cons,
        List.mem_singleton, List.not_mem_nil, or_false] at hm
      rcases hm with hm | hm
      · simp at hm
      · exact hnc sig hm
    · have h2 : ([Event.quoteReq USDC_MINT WSOL_MINT cfg.inputAmount,
          Event.quoteReq WSOL_MINT USDC_MINT b,
          Event.notify (mkOpportunity cfg s), Event.swapReq] ++ rest) ++
            [Event.confirmReq sg'] =
          pre ++ Event.confirmReq sig :: post := by
        rw [hct] at hpp
        exact hpp
      refine append_singleton_middle h2 ?_
      intro hm
      rcases List.mem_append.mp hm with hm | hm
      · simp at hm
      · exact hnc sig hm
  · intro hcfall
    rcases checkAndTrade_cases cfg env with
      ⟨-, hct⟩ | ⟨b, -, -, hct⟩ | ⟨b, s, -, -, -, hct⟩ |
      ⟨b, s, rest, -, -, -, hct, -, -⟩ | ⟨b, s, rest, sg', -, -, -, hct, -, -⟩
    · have h1 : (checkAndTrade cfg env).1 = JsResult.ok false := by rw [hct]
      rw [h1]; simp
    · have h1 : (checkAndTrade cfg env).1 = JsResult.ok false := by rw [hct]
      rw [h1]; simp
    · have h1 : (checkAndTrade cfg env).1 = JsResult.ok false := by rw [hct]
      rw [h1]; simp
    · have h1 : (checkAndTrade cfg env).1 = JsResult.ok false := by rw [hct]
      rw [h1]; simp
    · have h1 : (checkAndTrade cfg env).1 =
          (if env.confirm sg' then JsResult.ok true else JsResult.ok false) := by
        rw [hct]
      rw [h1, hcfall sg']
      simp

/-- Oracle environment for C8's witness: the whole pipeline succeeds but
confirmation always rejects. -/
def envC8 : Env :=
  { quoteBuy := .ok 60000
    quoteSell := fun _ => .ok 10001300
    swapBuy := .ok ([⟨"prog", 4⟩], [])
    swapSell := .ok ([⟨"prog", 4⟩], [])
    latestBlockhash := .ok ("bh", 100)
    compile := fun _ _ _ => some ⟨0⟩
    serialize := fun _ => some 100
    sim := fun _ => true
    send := fun _ => some "sig"
    confirm := fun _ => false }

/-- Witness for C8: with confirmation always rejecting, the cycle is not
reported `Confirmed`. -/
theorem c8_witness : (checkAndTrade defaultConfig envC8).1 ≠ JsResult.ok true :=
  (c8_post_broadcast defaultConfig envC8).2 (fun _ => rfl)

/-- C10: `checkAndTrade` always resolves to a boolean (never rejects),
resolves `true` only when the cycle ends in a successful confirmation
call, and consequently the main loop's catch branch — the only site of
the 30-second cooldown — is never entered by a cycle outcome. -/
theorem c10_never_rejects (cfg : Config) (env : Env) :
    (∃ b, (checkAndTrade cfg env).1 = JsResult.ok b) ∧
    ((checkAndTrade cfg env).1 = JsResult.ok true →
      ∃ pre sig, (checkAndTrade cfg env).2 = pre ++ [Event.confirmReq sig] ∧
        env.confirm sig = true) ∧
    (∀ c, (mainLoopIter c (checkAndTrade cfg env).1).2.1 = false) := by
  rcases checkAndTrade_cases cfg env with
    ⟨-, hct⟩ | ⟨b, -, -, hct⟩ | ⟨b, s, -, -, -, hct⟩ |
    ⟨b, s, rest, -, -, -, hct, -, -⟩ | ⟨b, s, rest, sg, -, -, -, hct, -, -⟩
  · have h1 : (checkAndTrade cfg env).1 = JsResult.ok false := by rw [hct]
    exact ⟨⟨false, h1⟩, fun h => absurd (h1 ▸ h) (by simp),
      fun c => by rw [h1]; rfl⟩
  · have h1 : (checkAndTrade cfg env).1 = JsResult.ok false := by rw [hct]
    exact ⟨⟨false, h1⟩, fun h => absurd (h1 ▸ h) (by simp),
      fun c => by rw [h1]; rfl⟩
  · have h1 : (checkAndTrade cfg env).1 = JsResult.ok false := by rw [hct]
    exact ⟨⟨false, h1⟩, fun h => absurd (h1 ▸ h) (by simp),
      fun c => by rw [h1]; rfl⟩
  · have h1 : (checkAndTrade cfg env).1 = JsResult.ok false := by rw [hct]
    exact ⟨⟨false, h1⟩, fun h => absurd (h1 ▸ h) (by simp),
      fun c => by rw [h1]; rfl⟩
  · cases hcf : env.confirm sg with
    | true =>
      have h1 : (checkAndTrade cfg env).1 = JsResult.ok true := by
        rw [hct]; simp [hcf]
      refine ⟨⟨true, h1⟩, ?_, fun c => by rw [h1]; rfl⟩
      intro _
      refine ⟨[Event.quoteReq USDC_MINT WSOL_MINT cfg.inputAmount,
        Event.quoteReq WSOL_MINT USDC_MINT b,
        Event.notify (mkOpportunity cfg s), Event.swapReq] ++ rest, sg, ?_, hcf⟩
      rw [hct]
    | false =>
      have h1 : (checkAndTrade cfg env).1 = JsResult.ok false := by
        rw [hct]; simp [hcf]
      exact ⟨⟨false, h1⟩, fun h => absurd (h1 ▸ h) (by simp),
        fun c => by rw [h1]; rfl⟩

/-- Oracle environment for C10's witness: the whole pipeline succeeds
including confirmation. -/
def envC10 : Env :=
  { quoteBuy := .ok 60000
    quoteSell := fun _ => .ok 10001300
    swapBuy := .ok ([⟨"prog", 4⟩], [])
    swapSell := .ok ([⟨"prog", 4⟩], [])
    latestBlockhash := .ok ("bh", 100)
    compile := fun _ _ _ => some ⟨0⟩
    serialize := fun _ => some 100
    sim := fun _ => true
    send := fun _ => some "sig"
    confirm := fun _ => true }

/-- Witness for C10: a fully successful cycle resolves `true` and its
trace ends with the successful confirmation call. -/
theorem c10_witness :
    ∃ pre sig, (checkAndTrade defaultConfig envC10).2 =
        pre ++ [Event.confirmReq sig] ∧
      envC10.confirm sig = true :=
  (c10_never_rejects defaultConfig envC10).2.1 (by decide)

end MevBot
